import Mathlib

/-!
# Verification of the streamable-HTTP session router example

A shallow embedding of `examples/server/jsonResponseStreamableHttp.js`:
the request classifier `isInitializeRequest`, the session registry
(a plain JS object mapping session ids to transports), and the
`POST /mcp` / `GET /mcp` dispatchers, together with theorems about them.
-/

namespace McpRouter

/-- A JavaScript runtime value as it can appear as a parsed request body
(`express.json()` produces `undefined`, `null`, booleans, numbers, strings,
arrays and plain objects). Objects are modelled as field lists; a runtime
JS object has one entry per key and lookup is `lookupField` below. -/
inductive JsValue where
  | null : JsValue
  | undefined : JsValue
  | bool : Bool → JsValue
  | num : Int → JsValue
  | str : String → JsValue
  | arr : List JsValue → JsValue
  | obj : List (String × JsValue) → JsValue

/-- Field lookup on a JS object's field list (the object's value at a key). -/
def lookupField (fields : List (String × JsValue)) (key : String) : Option JsValue :=
  match fields with
  | [] => none
  | (k, v) :: rest => if k = key then some v else lookupField rest key

/-- `typeof v` for the modelled values: note `typeof null` is `"object"`,
and arrays are `"object"` as well. -/
def jsTypeof : JsValue → String
  | .null => "object"
  | .undefined => "undefined"
  | .bool _ => "boolean"
  | .num _ => "number"
  | .str _ => "string"
  | .arr _ => "object"
  | .obj _ => "object"

/-- Strict equality `v === null`. -/
def jsIsNull : JsValue → Bool
  | .null => true
  | _ => false

/-- Strict equality `v === s` against a string literal: true iff `v` is a
string with exactly those contents. -/
def jsStrictEqStr (v : JsValue) (s : String) : Bool :=
  match v with
  | .str sv => decide (sv = s)
  | _ => false

/-- Decimal digit value of a character, if any (code points 48–57). -/
def digitVal (c : Char) : Option Nat :=
  if 48 ≤ c.toNat ∧ c.toNat ≤ 57 then some (c.toNat - 48) else none

/-- Accumulate a decimal number from characters, failing on a non-digit. -/
def parseDigits (cs : List Char) (acc : Nat) : Option Nat :=
  match cs with
  | [] => some acc
  | c :: rest =>
    match digitVal c with
    | some d => parseDigits rest (10 * acc + d)
    | none => none

/-- A string as a canonical JS array index: a nonempty digit string with
no leading zero (except `"0"` itself). -/
def jsArrayIndex (key : String) : Option Nat :=
  match key.data with
  | [] => none
  | c :: rest =>
    if c = '0' ∧ rest ≠ [] then none
    else parseDigits (c :: rest) 0

/-- `key in v` for an object or array (the only values the source applies
`in` to, thanks to the preceding `typeof`/null guards). Arrays own their
indices and `length`; prototype-chain properties are not modelled (no
prototype has a property named `method`, the only key the source tests). -/
def jsHasProp (key : String) : JsValue → Bool
  | .obj fields => (lookupField fields key).isSome
  | .arr l => decide (key = "length") || (match jsArrayIndex key with
      | some i => decide (i < l.length)
      | none => false)
  | _ => false

/-- Property read `v.key`: an absent key reads as `undefined`; reads on
primitives box and read as `undefined` (never the source's situation, since
every read is guarded). Reads on `null`/`undefined` would throw — the
exception-aware embedding `jsGetPropE` below accounts for that. -/
def jsGetProp (key : String) : JsValue → JsValue
  | .obj fields => (lookupField fields key).getD .undefined
  | _ => .undefined

/-- The per-message check from `isInitializeRequest`
(`typeof msg === 'object' && msg !== null && 'method' in msg &&
msg.method === 'initialize'`). -/
def isInitCheck (msg : JsValue) : Bool :=
  decide (jsTypeof msg = "object") && !(jsIsNull msg)
    && jsHasProp "method" msg
    && jsStrictEqStr (jsGetProp "method" msg) "initialize"

/-- `isInitializeRequest(body)` from the source: on an array,
`body.some(...)` over the elements; otherwise the check applied
to the body itself. -/
def isInitializeRequest (body : JsValue) : Bool :=
  match body with
  | .arr l => l.any isInitCheck
  | _ => isInitCheck body

/-- The spec's notion of an initialize message: a mapping whose `method`
key holds exactly the string `"initialize"`. -/
def SpecInitMsg (v : JsValue) : Prop :=
  ∃ fields, v = JsValue.obj fields ∧
    lookupField fields "method" = some (JsValue.str "initialize")

/-- Exception-aware `key in v`: the `in` operator throws a `TypeError`
when its right operand is not an object (including `null` and primitives). -/
def jsInE (key : String) (v : JsValue) : Except String Bool :=
  match v with
  | .obj _ => .ok (jsHasProp key v)
  | .arr _ => .ok (jsHasProp key v)
  | _ => .error "TypeError: cannot use in operator"

/-- Exception-aware property read `v.key`: reading a property of `null` or
`undefined` throws a `TypeError`; primitives box and read `undefined`. -/
def jsGetPropE (key : String) (v : JsValue) : Except String JsValue :=
  match v with
  | .null => .error "TypeError: cannot read properties of null"
  | .undefined => .error "TypeError: cannot read properties of undefined"
  | _ => .ok (jsGetProp key v)

/-- The per-message check of `isInitializeRequest` under exception-aware
JS semantics, with the source's left-to-right short-circuit order:
`typeof msg === 'object' && msg !== null && 'method' in msg &&
msg.method === 'initialize'`. -/
def isInitCheckE (msg : JsValue) : Except String Bool :=
  if jsTypeof msg ≠ "object" then .ok false
  else if jsIsNull msg then .ok false
  else do
    let h ← jsInE "method" msg
    if !h then pure false
    else do
      let v ← jsGetPropE "method" msg
      pure (jsStrictEqStr v "initialize")

/-- `Array.prototype.some` with a possibly-throwing callback. -/
def someE (f : JsValue → Except String Bool) : List JsValue → Except String Bool
  | [] => .ok false
  | x :: xs => do
    let b ← f x
    if b then pure true else someE f xs

/-- `isInitializeRequest(body)` under exception-aware JS semantics. -/
def isInitializeRequestE (body : JsValue) : Except String Bool :=
  match body with
  | .arr l => someE isInitCheckE l
  | _ => isInitCheckE body

/-- A transport as the dispatcher observes it: `tid` stands for the object's
reference identity (each `new StreamableHTTPServerTransport(...)` yields a
fresh one), and `sessionId` is the optional session id the transport exposes
(`string | undefined` in the source). -/
structure Transport where
  tid : Nat
  sessionId : Option String
deriving DecidableEq, Repr

/-- The registry `const transports = {}`: a JS object keyed by session id. -/
abbrev Reg : Type := List (String × Transport)

/-- Key lookup `transports[id]` on the registry object. -/
def regGet (reg : Reg) (id : String) : Option Transport :=
  match reg with
  | [] => none
  | (k, t) :: rest => if k = id then some t else regGet rest id

/-- Key assignment `transports[id] = t`: replaces the value at an existing
key, otherwise appends a new entry. -/
def regPut (reg : Reg) (id : String) (t : Transport) : Reg :=
  match reg with
  | [] => [(id, t)]
  | (k, t') :: rest => if k = id then (id, t) :: rest else (k, t') :: regPut rest id t

/-- Modelled from the spec: the Registry operation `remove(id)` (§4.2, "used
only on close") has no counterpart in the source file — the example never
evicts a session — so it is modelled from the spec's words as deleting the
entry for `id`. -/
def regRemove (reg : Reg) (id : String) : Reg :=
  reg.filter (fun p => p.1 ≠ id)

/-- A `POST /mcp` request as the dispatcher sees it: the raw value of the
`mcp-session-id` header (`undefined` when the header was not sent, its string
value — possibly empty — when it was), and the parsed JSON body. -/
structure Request where
  header : Option String
  body : JsValue

/-- JS truthiness of the header value: `undefined` and `""` are falsy. -/
def headerTruthy : Option String → Bool
  | none => false
  | some s => decide (s ≠ "")

/-- Behaviour of the opaque transport/server collaborators during one
dispatch: whether `server.connect` throws, whether `handleRequest` throws,
whether response headers have already been sent when the `catch` block runs,
and which session id the freshly constructed transport exposes after its
`handleRequest` returns. -/
structure Behavior where
  connectThrows : Bool
  handleThrows : Bool
  headersSent : Bool
  newSessionId : Option String
deriving DecidableEq, Repr

/-- Observable side effects on the collaborators, in program order. -/
inductive Event where
  | connect : Nat → Event
  | handle : Nat → JsValue → Event

/-- What the dispatcher ultimately writes back for one `POST /mcp` call. -/
inductive ResponseOutcome where
  /-- `res.status(status).json(body)`. -/
  | json : Nat → JsValue → ResponseOutcome
  /-- The response was produced by `transport.handleRequest` (by the
  transport with the given identity). -/
  | handled : Nat → ResponseOutcome
  /-- An error occurred after the response had begun: logged only, nothing
  further written. -/
  | errorLogged : ResponseOutcome

/-- The result of one `POST /mcp` dispatch: the registry afterwards, the
response written, the collaborator events in order, and whether the `catch`
block ran. -/
structure DispatchResult where
  reg : Reg
  response : ResponseOutcome
  events : List Event
  caughtError : Bool

/-- The REJECT body
`{ jsonrpc: '2.0', error: { code: -32000, message: 'Bad Request: No valid session ID provided' }, id: null }`. -/
def err400Body : JsValue :=
  .obj [("jsonrpc", .str "2.0"),
        ("error", .obj [("code", .num (-32000)),
                        ("message", .str "Bad Request: No valid session ID provided")]),
        ("id", .null)]

/-- The internal-error body
`{ jsonrpc: '2.0', error: { code: -32603, message: 'Internal server error' }, id: null }`. -/
def err500Body : JsValue :=
  .obj [("jsonrpc", .str "2.0"),
        ("error", .obj [("code", .num (-32603)),
                        ("message", .str "Internal server error")]),
        ("id", .null)]

/-- The `catch` block: log, then reply 500 unless `res.headersSent`. -/
def catchResult (reg : Reg) (events : List Event) (beh : Behavior) : DispatchResult :=
  { reg := reg,
    response := if beh.headersSent then .errorLogged else .json 500 err500Body,
    events := events,
    caughtError := true }

/-- The `POST /mcp` handler. `freshTid` is the identity a transport
constructed during this call would receive. Mirrors the source:
`if (sessionId && transports[sessionId])` → reuse;
`else if (!sessionId && isInitializeRequest(req.body))` → create, connect,
handle, then register when `transport.sessionId` is truthy;
`else` → reject with 400; all wrapped in try/catch. -/
def postMcp (reg : Reg) (freshTid : Nat) (beh : Behavior) (req : Request) : DispatchResult :=
  match (if headerTruthy req.header then regGet reg (req.header.getD "") else none) with
  | some t =>
    -- REUSE: `transport = transports[sessionId]; await transport.handleRequest(...)`
    if beh.handleThrows then
      catchResult reg [.handle t.tid req.body] beh
    else
      { reg := reg, response := .handled t.tid,
        events := [.handle t.tid req.body], caughtError := false }
  | none =>
    if !headerTruthy req.header && isInitializeRequest req.body then
      -- CREATE: construct, `await server.connect(transport)`,
      -- `await transport.handleRequest(...)`, then conditionally register
      if beh.connectThrows then
        catchResult reg [.connect freshTid] beh
      else if beh.handleThrows then
        catchResult reg [.connect freshTid, .handle freshTid req.body] beh
      else
        let t : Transport := { tid := freshTid, sessionId := beh.newSessionId }
        let reg' :=
          match beh.newSessionId with
          | some sid => if sid ≠ "" then regPut reg sid t else reg
          | none => reg
        { reg := reg', response := .handled freshTid,
          events := [.connect freshTid, .handle freshTid req.body], caughtError := false }
    else
      -- REJECT: `res.status(400).json({...})`
      { reg := reg, response := .json 400 err400Body, events := [], caughtError := false }

/-- The response of the `GET /mcp` handler. -/
structure GetResult where
  status : Nat
  allow : Option String
  body : String
deriving DecidableEq, Repr

/-- The `GET /mcp` handler:
`res.status(405).set('Allow', 'POST').send('Method Not Allowed')`. -/
def getMcp (_reg : Reg) (_req : Request) : GetResult :=
  { status := 405, allow := some "POST", body := "Method Not Allowed" }

/-- Registry well-formedness: every key is a generated (hence nonempty)
session id. This holds for every reachable registry, since the only write
is guarded by the truthiness of `transport.sessionId`. -/
def RegWF (reg : Reg) : Prop :=
  ∀ p ∈ reg, p.1 ≠ ""

/-- C2 as stated, reading "a session identifier header is present" as the
header having been sent at all (`req.headers['mcp-session-id']` not
`undefined`): every request matching neither (header present ∧ registry hit)
nor (header absent ∧ initialize body) is rejected with 400 and touches no
transport. Refuted below: the source tests JS truthiness, so an
empty-valued header behaves as an absent one. -/
def ClaimC2Stated : Prop :=
  ∀ (reg : Reg) (freshTid : Nat) (beh : Behavior) (req : Request),
    ¬(req.header.isSome = true ∧ (regGet reg (req.header.getD "")).isSome = true) →
    ¬(req.header.isSome = false ∧ isInitializeRequest req.body = true) →
    postMcp reg freshTid beh req =
      { reg := reg, response := .json 400 err400Body, events := [], caughtError := false }

/-! ## Theorems -/

theorem jsArrayIndex_method : jsArrayIndex "method" = none := by decide

theorem isInitCheck_iff (v : JsValue) : isInitCheck v = true ↔ SpecInitMsg v := by
  cases v with
  | null => simp [isInitCheck, jsIsNull, SpecInitMsg]
  | undefined => simp [isInitCheck, jsTypeof, SpecInitMsg]
  | bool b => simp [isInitCheck, jsTypeof, SpecInitMsg]
  | num n => simp [isInitCheck, jsTypeof, SpecInitMsg]
  | str s => simp [isInitCheck, jsTypeof, SpecInitMsg]
  | arr l =>
    simp [isInitCheck, jsTypeof, jsIsNull, jsHasProp, jsArrayIndex_method, SpecInitMsg]
  | obj fields =>
    simp only [isInitCheck, jsTypeof, jsIsNull, jsHasProp, jsGetProp, SpecInitMsg,
      Bool.and_eq_true, decide_eq_true_eq, Bool.not_eq_true]
    cases h : lookupField fields "method" with
    | none => simp [h]
    | some w => cases w <;> simp [h, jsStrictEqStr]

theorem isInitCheckE_ok (msg : JsValue) : isInitCheckE msg = .ok (isInitCheck msg) := by
  cases msg with
  | null => rfl
  | undefined => rfl
  | bool b => rfl
  | num n => rfl
  | str s => rfl
  | arr l =>
    simp only [isInitCheckE, isInitCheck, jsTypeof, jsIsNull, jsInE, jsGetPropE]
    cases h : jsHasProp "method" (JsValue.arr l) <;>
      simp [h, Bind.bind, Except.bind, pure, Except.pure]
  | obj fields =>
    simp only [isInitCheckE, isInitCheck, jsTypeof, jsIsNull, jsInE, jsGetPropE]
    cases h : jsHasProp "method" (JsValue.obj fields) <;>
      simp [h, Bind.bind, Except.bind, pure, Except.pure]

theorem someE_ok (l : List JsValue) : someE isInitCheckE l = .ok (l.any isInitCheck) := by
  induction l with
  | nil => rfl
  | cons x xs ih =>
    simp only [someE, List.any_cons, isInitCheckE_ok]
    cases h : isInitCheck x <;> simp [h, ih, Bind.bind, Except.bind, pure, Except.pure]

/-- C1: for every body `B`, `isInitializeRequest(B)` returns true if and only
if `B` is a mapping whose `method` key holds exactly `"initialize"`, or `B` is
a sequence at least one of whose elements is such a mapping; any other shape
(null, scalar, sequence of non-mappings) yields false. -/
theorem c1_isInitializeRequest_iff (b : JsValue) :
    isInitializeRequest b = true ↔
      (SpecInitMsg b ∨ ∃ l, b = JsValue.arr l ∧ ∃ x, x ∈ l ∧ SpecInitMsg x) := by
  cases b with
  | arr l =>
    simp only [isInitializeRequest, List.any_eq_true, isInitCheck_iff]
    constructor
    · rintro ⟨x, hx, hs⟩
      exact Or.inr ⟨l, rfl, x, hx, hs⟩
    · rintro (⟨fields, h, _⟩ | ⟨l', hl, x, hx, hs⟩)
      · exact JsValue.noConfusion h
      · injection hl with h
        subst h
        exact ⟨x, hx, hs⟩
  | null => simp [isInitializeRequest, isInitCheck_iff]
  | undefined => simp [isInitializeRequest, isInitCheck_iff]
  | bool v => simp [isInitializeRequest, isInitCheck_iff]
  | num v => simp [isInitializeRequest, isInitCheck_iff]
  | str v => simp [isInitializeRequest, isInitCheck_iff]
  | obj fields => simp [isInitializeRequest, isInitCheck_iff]

/-- C10: `isInitializeRequest` is total and exception-free: under the
exception-aware JS semantics it evaluates to `Except.ok` of its boolean
result on every input value whatsoever (null, undefined, scalars, mappings,
and sequences of arbitrary mixed elements) — every `method` access is guarded
by the preceding object-and-non-null checks, so no `TypeError` is reachable. -/
theorem c10_isInitializeRequest_total (b : JsValue) :
    isInitializeRequestE b = Except.ok (isInitializeRequest b) := by
  cases b with
  | arr l => exact someE_ok l
  | null => exact isInitCheckE_ok JsValue.null
  | undefined => exact isInitCheckE_ok JsValue.undefined
  | bool v => exact isInitCheckE_ok (JsValue.bool v)
  | num v => exact isInitCheckE_ok (JsValue.num v)
  | str v => exact isInitCheckE_ok (JsValue.str v)
  | obj fields => exact isInitCheckE_ok (JsValue.obj fields)

theorem regGet_regPut_self (reg : Reg) (id : String) (t : Transport) :
    regGet (regPut reg id t) id = some t := by
  induction reg with
  | nil => simp [regPut, regGet]
  | cons p rest ih =>
    obtain ⟨k, t'⟩ := p
    by_cases h : k = id <;> simp [regPut, regGet, h, ih]

theorem regGet_regPut_ne (reg : Reg) (id k : String) (t : Transport) (h : k ≠ id) :
    regGet (regPut reg id t) k = regGet reg k := by
  induction reg with
  | nil => simp [regPut, regGet, Ne.symm h]
  | cons p rest ih =>
    obtain ⟨k', t'⟩ := p
    by_cases h' : k' = id
    · subst h'
      simp [regPut, regGet, Ne.symm h]
    · simp [regPut, regGet, h', ih]

theorem regGet_regRemove_self (reg : Reg) (id : String) :
    regGet (regRemove reg id) id = none := by
  induction reg with
  | nil => rfl
  | cons p rest ih =>
    obtain ⟨k, t⟩ := p
    by_cases h : k = id
    · simpa [regRemove, List.filter_cons, h] using ih
    · have hstep : regRemove ((k, t) :: rest) id = (k, t) :: regRemove rest id := by
        simp [regRemove, List.filter_cons, h]
      rw [hstep]
      simpa [regGet, h] using ih

theorem regPut_length_of_absent (reg : Reg) (id : String) (t : Transport)
    (h : regGet reg id = none) :
    (regPut reg id t).length = reg.length + 1 := by
  induction reg with
  | nil => rfl
  | cons p rest ih =>
    obtain ⟨k, t'⟩ := p
    by_cases hk : k = id
    · simp [regGet, hk] at h
    · simp only [regGet, hk, if_false] at h
      simp [regPut, hk, ih h]

theorem regPut_self_of_present (reg : Reg) (id : String) (t : Transport)
    (h : regGet reg id = some t) :
    regPut reg id t = reg := by
  induction reg with
  | nil => simp [regGet] at h
  | cons p rest ih =>
    obtain ⟨k, t'⟩ := p
    by_cases hk : k = id
    · subst hk
      simp [regGet] at h
      simp [regPut, h]
    · simp only [regGet, hk, if_false] at h
      simp [regPut, hk, ih h]

/-- The key of any successful lookup is a key of the registry. -/
theorem regGet_mem (reg : Reg) (id : String) (t : Transport)
    (h : regGet reg id = some t) : (id, t) ∈ reg := by
  induction reg with
  | nil => simp [regGet] at h
  | cons p rest ih =>
    obtain ⟨k, t'⟩ := p
    by_cases hk : k = id
    · subst hk
      simp [regGet] at h
      simp [h]
    · simp only [regGet, hk, if_false] at h
      exact List.mem_cons_of_mem _ (ih h)

theorem regPut_WF (reg : Reg) (id : String) (t : Transport)
    (hreg : RegWF reg) (hid : id ≠ "") : RegWF (regPut reg id t) := by
  induction reg with
  | nil =>
    intro p hp
    simp [regPut] at hp
    simp [hp, hid]
  | cons q rest ih =>
    obtain ⟨k, t'⟩ := q
    have hk : k ≠ "" := hreg (k, t') (List.mem_cons_self _ _)
    have hrest : RegWF rest := fun p hp => hreg p (List.mem_cons_of_mem _ hp)
    intro p hp
    by_cases h : k = id
    · simp [regPut, h] at hp
      rcases hp with hp | hp
      · simp [hp, hid]
      · exact hreg p (List.mem_cons_of_mem _ hp)
    · simp only [regPut, h, if_false, List.mem_cons] at hp
      rcases hp with hp | hp
      · simp [hp, hk]
      · exact ih hrest p hp

/-- The dispatcher preserves registry well-formedness: the only write,
in the CREATE branch, is guarded by the truthiness of the fresh
transport's session id. -/
theorem postMcp_preserves_WF (reg : Reg) (freshTid : Nat) (beh : Behavior)
    (req : Request) (hreg : RegWF reg) :
    RegWF (postMcp reg freshTid beh req).reg := by
  unfold postMcp
  cases hl : (if headerTruthy req.header then regGet reg (req.header.getD "") else none) with
  | some t =>
    by_cases hth : beh.handleThrows <;> simp [hth, catchResult, hreg]
  | none =>
    by_cases hcr : (!headerTruthy req.header && isInitializeRequest req.body) = true
    · simp only [hcr, if_true]
      by_cases hc : beh.connectThrows
      · simp [hc, catchResult, hreg]
      · by_cases hh : beh.handleThrows
        · simp [hc, hh, catchResult, hreg]
        · simp only [hc, hh, if_false, Bool.false_eq_true]
          cases hs : beh.newSessionId with
          | none => simpa [hs] using hreg
          | some sid =>
            by_cases hne : sid = ""
            · simpa [hs, hne] using hreg
            · simpa [hs, hne] using regPut_WF reg sid _ hreg hne
    · simp [hcr, hreg]

/-- C2 counterexample: the request with header `mcp-session-id: ""` (present
but empty) and an initialize body satisfies the claim's hypotheses — the
header is present and no registry entry matches — yet the dispatcher takes
the CREATE branch (`'' && transports['']` is falsy, `!''` is truthy), touching
a fresh transport instead of replying 400. -/
theorem c2_counterexample : ¬ ClaimC2Stated := by
  intro h
  have hc := h [] 0 ⟨false, false, false, some "abc"⟩
      ⟨some "", JsValue.obj [("method", JsValue.str "initialize")]⟩
      (by simp [regGet]) (by simp)
  have hev : (postMcp [] 0 ⟨false, false, false, some "abc"⟩
      ⟨some "", JsValue.obj [("method", JsValue.str "initialize")]⟩).events
      = [Event.connect 0, Event.handle 0 (JsValue.obj [("method", JsValue.str "initialize")])] :=
    rfl
  rw [hc] at hev
  exact List.noConfusion hev

/-- C2 amended: with "a session identifier is present" read as the header
being truthy (nonempty; an empty-valued header counts as absent, as the
source's truthiness tests treat it), every request matching neither branch
condition is rejected: no transport is touched, the registry is unchanged,
and the reply is HTTP 400 with the fixed body whose `id` is null, regardless
of the caller-supplied id and of registry contents. -/
theorem c2_reject (reg : Reg) (freshTid : Nat) (beh : Behavior) (req : Request)
    (h1 : ¬(headerTruthy req.header = true ∧ (regGet reg (req.header.getD "")).isSome = true))
    (h2 : ¬(headerTruthy req.header = false ∧ isInitializeRequest req.body = true)) :
    postMcp reg freshTid beh req =
      { reg := reg, response := .json 400 err400Body, events := [], caughtError := false } := by
  unfold postMcp
  cases ht : headerTruthy req.header with
  | true =>
    cases hl : regGet reg (req.header.getD "") with
    | some t => exact absurd ⟨ht, by simp [hl]⟩ h1
    | none => simp [ht, hl]
  | false =>
    have hi : isInitializeRequest req.body = false := by
      cases hb : isInitializeRequest req.body
      · rfl
      · exact absurd ⟨ht, hb⟩ h2
    simp [ht, hi]

theorem c2_reject_witness :
    postMcp [] 0 ⟨false, false, false, none⟩
        ⟨none, JsValue.obj [("method", JsValue.str "tools/call")]⟩ =
      { reg := [], response := .json 400 err400Body, events := [], caughtError := false } :=
  c2_reject [] 0 ⟨false, false, false, none⟩
    ⟨none, JsValue.obj [("method", JsValue.str "tools/call")]⟩
    (by decide) (by decide)

/-- Evaluation of a CREATE dispatch that runs to completion: connect, then
handle, then register exactly when the fresh transport's session id is
truthy. -/
theorem postMcp_create (reg : Reg) (freshTid : Nat) (beh : Behavior) (req : Request)
    (hh : headerTruthy req.header = false)
    (hinit : isInitializeRequest req.body = true)
    (hc : beh.connectThrows = false)
    (hht : beh.handleThrows = false) :
    postMcp reg freshTid beh req =
      { reg := match beh.newSessionId with
               | some sid =>
                 if sid ≠ "" then
                   regPut reg sid { tid := freshTid, sessionId := beh.newSessionId }
                 else reg
               | none => reg,
        response := .handled freshTid,
        events := [.connect freshTid, .handle freshTid req.body],
        caughtError := false } := by
  unfold postMcp
  simp [hh, hinit, hc, hht]

/-- C3: on the CREATE branch (no session header, initialize body), once the
new transport's `handleRequest` has returned, a fresh nonempty exposed
session id yields exactly one new registry entry — that id now maps to that
transport, every other id is untouched, and the registry grew by one — while
a transport that never surfaces a session id leaves the registry unchanged
and is discarded. -/
theorem c3_create_registration (reg : Reg) (freshTid : Nat) (beh : Behavior) (req : Request)
    (hh : req.header = none)
    (hinit : isInitializeRequest req.body = true)
    (hc : beh.connectThrows = false)
    (hht : beh.handleThrows = false) :
    (∀ sid, beh.newSessionId = some sid → sid ≠ "" → regGet reg sid = none →
      (postMcp reg freshTid beh req).reg
          = regPut reg sid { tid := freshTid, sessionId := beh.newSessionId } ∧
      regGet (postMcp reg freshTid beh req).reg sid
          = some { tid := freshTid, sessionId := beh.newSessionId } ∧
      (∀ k, k ≠ sid → regGet (postMcp reg freshTid beh req).reg k = regGet reg k) ∧
      (postMcp reg freshTid beh req).reg.length = reg.length + 1) ∧
    (beh.newSessionId = none → (postMcp reg freshTid beh req).reg = reg) := by
  have hht' : headerTruthy req.header = false := by rw [hh]; rfl
  have hpost := postMcp_create reg freshTid beh req hht' hinit hc hht
  constructor
  · intro sid hsid hne hfresh
    have hreg' : (postMcp reg freshTid beh req).reg
        = regPut reg sid { tid := freshTid, sessionId := beh.newSessionId } := by
      rw [hpost]
      simp [hsid, hne]
    refine ⟨hreg', ?_, ?_, ?_⟩
    · rw [hreg']
      exact regGet_regPut_self reg sid _
    · intro k hk
      rw [hreg']
      exact regGet_regPut_ne reg sid k _ hk
    · rw [hreg']
      exact regPut_length_of_absent reg sid _ hfresh
  · intro hsid
    rw [hpost]
    simp [hsid]

theorem c3_create_registration_witness :
    regGet (postMcp [] 0 ⟨false, false, false, some "s1"⟩
        ⟨none, JsValue.obj [("method", JsValue.str "initialize")]⟩).reg "s1"
      = some { tid := 0, sessionId := some "s1" } ∧
    (postMcp [] 0 ⟨false, false, false, some "s1"⟩
        ⟨none, JsValue.obj [("method", JsValue.str "initialize")]⟩).reg.length = 1 := by
  have h := c3_create_registration [] 0 ⟨false, false, false, some "s1"⟩
      ⟨none, JsValue.obj [("method", JsValue.str "initialize")]⟩
      rfl (by decide) rfl rfl
  have h1 := h.1 "s1" rfl (by decide) rfl
  exact ⟨h1.2.1, h1.2.2.2⟩

/-- C4: a request whose session header matches a registered entry takes the
REUSE branch: the body is forwarded to exactly that stored transport's
`handleRequest` (and nothing else happens to any collaborator — in
particular no new transport is constructed, there being no connect event),
and the registry is left unchanged. The registry is assumed well-formed
(every key nonempty), which holds for every reachable registry by
`postMcp_preserves_WF`. -/
theorem c4_reuse_frame (reg : Reg) (freshTid : Nat) (beh : Behavior) (req : Request)
    (s : String) (t : Transport)
    (hreg : RegWF reg)
    (hh : req.header = some s)
    (hl : regGet reg s = some t) :
    (postMcp reg freshTid beh req).reg = reg ∧
    (postMcp reg freshTid beh req).events = [.handle t.tid req.body] := by
  have hs : s ≠ "" := hreg (s, t) (regGet_mem reg s t hl)
  have ht : headerTruthy req.header = true := by simp [hh, headerTruthy, hs]
  unfold postMcp
  rw [hh] at ht ⊢
  simp only [ht, if_true, Option.getD_some, hl]
  by_cases hth : beh.handleThrows <;> simp [hth, catchResult]

theorem c4_reuse_frame_witness :
    (postMcp [("a", { tid := 5, sessionId := some "a" })] 0 ⟨false, false, false, none⟩
        ⟨some "a", JsValue.null⟩).reg = [("a", { tid := 5, sessionId := some "a" })] ∧
    (postMcp [("a", { tid := 5, sessionId := some "a" })] 0 ⟨false, false, false, none⟩
        ⟨some "a", JsValue.null⟩).events = [.handle 5 JsValue.null] :=
  c4_reuse_frame [("a", { tid := 5, sessionId := some "a" })] 0 ⟨false, false, false, none⟩
    ⟨some "a", JsValue.null⟩ "a" { tid := 5, sessionId := some "a" }
    (by intro p hp; simp at hp; simp [hp]) rfl rfl

/-- C5 counterexample: the source's `put` is the plain assignment
`transports[transport.sessionId] = transport` (`regPut`); writing a
different transport under an existing key replaces the stored entry rather
than rejecting the write: from `{a ↦ ⟨1,·⟩}`, `put("a", ⟨2,·⟩)` yields
`{a ↦ ⟨2,·⟩}` — the existing entry is not preserved. -/
theorem c5_counterexample :
    regPut [("a", { tid := 1, sessionId := some "a" })] "a"
        { tid := 2, sessionId := some "a" }
      = [("a", { tid := 2, sessionId := some "a" })] ∧
    regGet (regPut [("a", { tid := 1, sessionId := some "a" })] "a"
        { tid := 2, sessionId := some "a" }) "a"
      ≠ some { tid := 1, sessionId := some "a" } := by
  decide

/-- C5 amended: `put(id, t)` stores `t` under `id` unconditionally — an
existing entry under `id` holding a different transport is overwritten, not
preserved — and putting the very same instance again is a no-op, leaving the
registry unchanged. -/
theorem c5_put_overwrites (reg : Reg) (id : String) (t : Transport) :
    regGet (regPut reg id t) id = some t ∧
    (regGet reg id = some t → regPut reg id t = reg) :=
  ⟨regGet_regPut_self reg id t, regPut_self_of_present reg id t⟩

theorem c5_put_overwrites_witness :
    regGet (regPut [("a", { tid := 1, sessionId := some "a" })] "a"
        { tid := 1, sessionId := some "a" }) "a"
      = some { tid := 1, sessionId := some "a" } ∧
    regPut [("a", { tid := 1, sessionId := some "a" })] "a"
        { tid := 1, sessionId := some "a" }
      = [("a", { tid := 1, sessionId := some "a" })] := by
  have h := c5_put_overwrites [("a", { tid := 1, sessionId := some "a" })] "a"
      { tid := 1, sessionId := some "a" }
  exact ⟨h.1, h.2 (by decide)⟩

/-- Every dispatch either finishes without entering the `catch` block, or
its whole result is the `catch` block's: registry untouched and the response
determined solely by `res.headersSent`. In particular `postMcp` is a total
function — no failure escapes the dispatcher. -/
theorem postMcp_cases (reg : Reg) (freshTid : Nat) (beh : Behavior) (req : Request) :
    (postMcp reg freshTid beh req).caughtError = false ∨
    postMcp reg freshTid beh req
      = catchResult reg (postMcp reg freshTid beh req).events beh := by
  unfold postMcp
  cases hif : (if headerTruthy req.header then regGet reg (req.header.getD "") else none) with
  | some t =>
    by_cases hth : beh.handleThrows <;> simp [hth, catchResult]
  | none =>
    by_cases hcr : (!headerTruthy req.header && isInitializeRequest req.body) = true
    · by_cases hc : beh.connectThrows
      · simp [hcr, hc, catchResult]
      · by_cases hth : beh.handleThrows <;> simp [hcr, hc, hth, catchResult]
    · simp [hcr]

/-- C6: every error raised while constructing or invoking a transport is
caught at the dispatcher boundary (`postMcp` is total — see also
`postMcp_cases` — so nothing propagates); when the `catch` block runs, the
reply is HTTP 500 with the fixed internal-error body if no response bytes
have been sent yet, and only a log — nothing further written — if the
response had already begun. -/
theorem c6_error_contract (reg : Reg) (freshTid : Nat) (beh : Behavior) (req : Request)
    (h : (postMcp reg freshTid beh req).caughtError = true) :
    (beh.headersSent = false →
      (postMcp reg freshTid beh req).response = .json 500 err500Body) ∧
    (beh.headersSent = true →
      (postMcp reg freshTid beh req).response = .errorLogged) := by
  rcases postMcp_cases reg freshTid beh req with hc | hc
  · rw [h] at hc
    exact Bool.noConfusion hc
  · rw [hc]
    constructor <;> intro hs <;> simp [catchResult, hs]

theorem c6_error_contract_witness :
    (postMcp [] 0 ⟨false, true, false, none⟩
        ⟨none, JsValue.obj [("method", JsValue.str "initialize")]⟩).response
      = ResponseOutcome.json 500 err500Body :=
  (c6_error_contract [] 0 ⟨false, true, false, none⟩
      ⟨none, JsValue.obj [("method", JsValue.str "initialize")]⟩ (by decide)).1 rfl

/-- C7: on every CREATE dispatch the fresh transport is connected to the
server engine strictly before `handleRequest` is invoked on it: the event
trace is either `[connect]` alone (connect threw) or `[connect, handle]`,
never `handle` without a preceding `connect`. -/
theorem c7_connect_before_handle (reg : Reg) (freshTid : Nat) (beh : Behavior) (req : Request)
    (hh : headerTruthy req.header = false)
    (hinit : isInitializeRequest req.body = true) :
    (postMcp reg freshTid beh req).events = [.connect freshTid] ∨
    (postMcp reg freshTid beh req).events
      = [.connect freshTid, .handle freshTid req.body] := by
  unfold postMcp
  by_cases hc : beh.connectThrows
  · simp [hh, hinit, hc, catchResult]
  · by_cases hth : beh.handleThrows <;> simp [hh, hinit, hc, hth, catchResult]

theorem c7_connect_before_handle_witness :
    (postMcp [] 0 ⟨false, false, false, some "s1"⟩
        ⟨none, JsValue.obj [("method", JsValue.str "initialize")]⟩).events = [.connect 0] ∨
    (postMcp [] 0 ⟨false, false, false, some "s1"⟩
        ⟨none, JsValue.obj [("method", JsValue.str "initialize")]⟩).events
      = [.connect 0, .handle 0 (JsValue.obj [("method", JsValue.str "initialize")])] :=
  c7_connect_before_handle [] 0 ⟨false, false, false, some "s1"⟩
    ⟨none, JsValue.obj [("method", JsValue.str "initialize")]⟩ rfl (by decide)

/-- C8: `GET /mcp` always responds HTTP 405 with header `Allow: POST`,
regardless of the request's headers and of the registry state. -/
theorem c8_get_always_405 (reg : Reg) (req : Request) :
    getMcp reg req = { status := 405, allow := some "POST", body := "Method Not Allowed" } :=
  rfl

/-- C9: registry round-trip — after registering session id `S` with
transport `T`, looking `S` up returns exactly `T`; after removing `S`,
looking `S` up returns absent. -/
theorem c9_registry_roundtrip (reg : Reg) (s : String) (t : Transport) :
    regGet (regPut reg s t) s = some t ∧ regGet (regRemove reg s) s = none :=
  ⟨regGet_regPut_self reg s t, regGet_regRemove_self reg s⟩

end McpRouter

